import Mathlib

/-!
Verification of the tool-calling agent system (src/agent.py, src/multi_agent.py).

The LLM inference API and the MCP transport layer are external collaborators
(spec section 1 excludes them from the core).  They are modelled as an
environment: `resp i` is the candidate content returned by the i-th
`generate_content` call of one loop run, and `callTool` is the MCP
`session.call_tool` result for a given server, tool name and argument map —
`Except.error` models the call raising an exception, `Except.ok` a normal
return of content blocks.
-/

/-- A tool-call request emitted by the model inside one part
(`part.function_call` in the source, with `name` and `args`). -/
structure FunctionCall where
  name : String
  args : List (String × String)
deriving DecidableEq

/-- One part of a Gemini content: it may carry text, a function call, or a
function response (`types.Part` in the source).  `functionResponse` models
`Part.from_function_response(name, response={"result": text})` as the pair
(name, text). -/
structure GPart where
  text : Option String := none
  function_call : Option FunctionCall := none
  functionResponse : Option (String × String) := none
deriving DecidableEq

/-- A role-tagged message (`types.Content`). -/
structure Content where
  role : String
  parts : List GPart
deriving DecidableEq

/-- A content block of an MCP tool result.  Per the source's
`getattr(block, "text", str(block))`, a block either exposes a text field or
falls back to its string form (spec section 9 models this as a tagged
variant). -/
inductive ContentBlock where
  | textBlock (s : String)
  | plain (s : String)
deriving DecidableEq

/-- Rendering `getattr(block, "text", str(block))` of one block. -/
def ContentBlock.render : ContentBlock → String
  | .textBlock s => s
  | .plain s => s

/-- The external collaborators of one tool-calling loop run: the LLM
(`resp i` = `response.candidates[0].content` of the i-th model call) and the
MCP sessions (`callTool server name args` = the outcome of
`session.call_tool(name, args)` on the session registered for `server`;
`Except.error` is a raised exception). -/
structure AgentEnv where
  resp : Nat → Content
  callTool : String → String → List (String × String) → Except String (List ContentBlock)

/-- The list `[p for p in parts if p.function_call]`, projected to the calls. -/
def functionCallsOf (parts : List GPart) : List FunctionCall :=
  parts.filterMap GPart.function_call

/-- The list `[p.text for p in parts if hasattr(p, "text") and p.text]`
(only non-empty text survives Python truthiness). -/
def textsOf (parts : List GPart) : List String :=
  parts.filterMap fun p =>
    match p.text with
    | some t => if t = "" then none else some t
    | none => none

/-- The result text substituted for an unresolved tool name:
`f"오류: 알 수 없는 도구 '{fc.name}'"` (src/agent.py line 119,
src/multi_agent.py line 99). -/
def unknownToolText (n : String) : String :=
  "오류: 알 수 없는 도구 '" ++ n ++ "'"

/-- The placeholder returned for a response with no non-empty text parts
(`"(빈 응답)"`). -/
def emptyResponseText : String := "(빈 응답)"

/-- The fixed warning returned when the iteration cap is exhausted
(`"[경고] 최대 반복 횟수(10)에 도달했습니다."`). -/
def maxIterationsText : String := "[경고] 최대 반복 횟수(10)에 도달했습니다."

/-- Constructor `types.Part.from_text(text=s)`. -/
def mkTextPart (s : String) : GPart := { text := some s }

/-- Constructor `types.Part.from_function_response(name=n, response={"result": r})`. -/
def mkFunctionResponsePart (n r : String) : GPart := { functionResponse := some (n, r) }

/-- Dispatch of one model-requested tool call (src/agent.py lines 117-126):
`server_name = self.tools_map.get(fc.name)`; a missing or empty (falsy)
server name yields the substituted error text, otherwise the MCP session is
invoked and its content blocks are newline-joined.  A raised exception from
`call_tool` is not caught here. -/
def GeminiMCPAgent.dispatchCall (tools_map : String → Option String) (env : AgentEnv)
    (fc : FunctionCall) : Except String String :=
  match tools_map fc.name with
  | none => .ok (unknownToolText fc.name)
  | some server =>
    if server = "" then .ok (unknownToolText fc.name)
    else
      match env.callTool server fc.name fc.args with
      | .error e => .error e
      | .ok blocks => .ok (String.intercalate "\n" (blocks.map ContentBlock.render))

/-- The `for part in function_calls` loop of src/agent.py lines 112-133:
each call is dispatched in order and packaged as a function-response part;
the first raised exception aborts the whole traversal. -/
def GeminiMCPAgent.runCalls (tools_map : String → Option String) (env : AgentEnv) :
    List FunctionCall → Except String (List GPart)
  | [] => .ok []
  | fc :: rest =>
    match GeminiMCPAgent.dispatchCall tools_map env fc with
    | .error e => .error e
    | .ok rt =>
      match GeminiMCPAgent.runCalls tools_map env rest with
      | .error e => .error e
      | .ok ps => .ok (mkFunctionResponsePart fc.name rt :: ps)

/-- The observable outcome of one loop run: the returned text (or the raised
exception), the number of `generate_content` calls made, and the final
`messages` list. -/
structure RunOut where
  outcome : Except String String
  calls : Nat
  transcript : List Content

/-- The `for iteration in range(10)` loop of src/agent.py lines 86-138.
`fuel` is the number of remaining iterations, `idx` the index of the next
model call, `msgs` the accumulated `messages` list. -/
def GeminiMCPAgent.loopAux (tools_map : String → Option String) (env : AgentEnv) :
    Nat → Nat → List Content → RunOut
  | 0, _, msgs => ⟨.ok maxIterationsText, 0, msgs⟩
  | fuel + 1, idx, msgs =>
    let content := env.resp idx
    let fcs := functionCallsOf content.parts
    if fcs.isEmpty then
      let texts := textsOf content.parts
      ⟨.ok (if texts.isEmpty then emptyResponseText else String.intercalate "\n" texts), 1, msgs⟩
    else
      match GeminiMCPAgent.runCalls tools_map env fcs with
      | .error e => ⟨.error e, 1, msgs ++ [content]⟩
      | .ok toolParts =>
        let out := GeminiMCPAgent.loopAux tools_map env fuel (idx + 1)
          (msgs ++ [content, ⟨"user", toolParts⟩])
        ⟨out.outcome, out.calls + 1, out.transcript⟩

/-- Function `GeminiMCPAgent.query(user_input)` (src/agent.py lines 77-138): run the
tool-calling loop with the single initial user turn and at most 10 model
calls. -/
def GeminiMCPAgent.query (tools_map : String → Option String) (env : AgentEnv)
    (user_input : String) : RunOut :=
  GeminiMCPAgent.loopAux tools_map env 10 0 [⟨"user", [mkTextPart user_input]⟩]

/-- Dispatch of one model-requested tool call from the specialist loop
(src/multi_agent.py lines 97-106); the body is a verbatim duplicate of the
dispatch in src/agent.py lines 117-126. -/
def SpecialistAgent.dispatchCall (tools_map : String → Option String) (env : AgentEnv)
    (fc : FunctionCall) : Except String String :=
  match tools_map fc.name with
  | none => .ok (unknownToolText fc.name)
  | some server =>
    if server = "" then .ok (unknownToolText fc.name)
    else
      match env.callTool server fc.name fc.args with
      | .error e => .error e
      | .ok blocks => .ok (String.intercalate "\n" (blocks.map ContentBlock.render))

/-- The `for part in function_calls` loop of src/multi_agent.py lines 92-113. -/
def SpecialistAgent.runCalls (tools_map : String → Option String) (env : AgentEnv) :
    List FunctionCall → Except String (List GPart)
  | [] => .ok []
  | fc :: rest =>
    match SpecialistAgent.dispatchCall tools_map env fc with
    | .error e => .error e
    | .ok rt =>
      match SpecialistAgent.runCalls tools_map env rest with
      | .error e => .error e
      | .ok ps => .ok (mkFunctionResponsePart fc.name rt :: ps)

/-- The `for _ in range(10)` loop of src/multi_agent.py lines 63-119.  The
specialist additionally passes its fixed `system_instruction` to every
`generate_content` call and collects `log_lines` for `log_box`; under a fixed
response sequence (`env.resp`) the instruction has no further observable
effect, and the log lines are console output outside the returned value. -/
def SpecialistAgent.runAux (tools_map : String → Option String) (env : AgentEnv) :
    Nat → Nat → List Content → RunOut
  | 0, _, msgs => ⟨.ok maxIterationsText, 0, msgs⟩
  | fuel + 1, idx, msgs =>
    let content := env.resp idx
    let fcs := functionCallsOf content.parts
    if fcs.isEmpty then
      let texts := textsOf content.parts
      ⟨.ok (if texts.isEmpty then emptyResponseText else String.intercalate "\n" texts), 1, msgs⟩
    else
      match SpecialistAgent.runCalls tools_map env fcs with
      | .error e => ⟨.error e, 1, msgs ++ [content]⟩
      | .ok toolParts =>
        let out := SpecialistAgent.runAux tools_map env fuel (idx + 1)
          (msgs ++ [content, ⟨"user", toolParts⟩])
        ⟨out.outcome, out.calls + 1, out.transcript⟩

/-- Function `SpecialistAgent.run(task)` (src/multi_agent.py lines 52-119): the
tool-calling loop started from the single initial user turn `task`. -/
def SpecialistAgent.run (tools_map : String → Option String) (env : AgentEnv)
    (task : String) : RunOut :=
  SpecialistAgent.runAux tools_map env 10 0 [⟨"user", [mkTextPart task]⟩]

/-- A JSON value as produced by `json.loads` (numbers restricted to integers;
no claim involves fractional numbers).  Objects are association lists with
distinct keys in document order, as decoded from a JSON object. -/
inductive Json where
  | null
  | bool (b : Bool)
  | num (n : Int)
  | str (s : String)
  | arr (l : List Json)
  | obj (kvs : List (String × Json))

/-- Python truthiness of a decoded JSON value (`None`, `False`, `0`, `""`,
`[]`, dictionaries and empty containers follow Python's rules). -/
def Json.truthy : Json → Bool
  | .null => false
  | .bool b => b
  | .num n => n != 0
  | .str s => s != ""
  | .arr l => !l.isEmpty
  | .obj kvs => !kvs.isEmpty

/-- Lookup `plan.get(k, d)`: on a decoded object, the value at `k` or the default;
on any non-object value the attribute access raises (`AttributeError`). -/
def Json.getD (j : Json) (k : String) (d : Json) : Except String Json :=
  match j with
  | .obj kvs => .ok ((kvs.lookup k).getD d)
  | _ => .error "AttributeError: get"

/-- Rendering `str(v)` as used by the f-string `f"현재 작업: {task}"`.  Plans produced
by the planner carry string tasks; the container cases are a simplified
rendering (no claim evaluates them). -/
def Json.pyStr : Json → String
  | .null => "None"
  | .bool b => if b then "True" else "False"
  | .num n => toString n
  | .str s => s
  | .arr _ => "[...]"
  | .obj _ => "\x7b...\x7d"

/-- Extraction `s["agent"].capitalize()` restricted to the extracted string, as forced
for every step by the `step_summary` generator (src/multi_agent.py line 197):
a non-object step, a missing `"agent"` key, or a non-string agent value
raises. -/
def stepAgent (s : Json) : Except String String :=
  match s with
  | .obj kvs =>
    match kvs.lookup "agent" with
    | some (.str a) => .ok a
    | some _ => .error "AttributeError: capitalize"
    | none => .error "KeyError: agent"
  | _ => .error "TypeError: step index"

/-- Indexing `step["task"]`: dictionary indexing with a raised `KeyError` when the
key is missing. -/
def stepTask (s : Json) : Except String Json :=
  match s with
  | .obj kvs =>
    match kvs.lookup "task" with
    | some v => .ok v
    | none => .error "KeyError: task"
  | _ => .error "TypeError: step index"

/-- Evaluation of the `step_summary` generator
`" → ".join(s["agent"].capitalize() for s in steps)` (src/multi_agent.py
line 197): the agent string of every step is forced, in order, before any
step executes; the first failure raises. -/
def stepSummary : List Json → Except String (List String)
  | [] => .ok []
  | s :: rest =>
    match stepAgent s with
    | .error e => .error e
    | .ok a =>
      match stepSummary rest with
      | .error e => .error e
      | .ok l => .ok (a :: l)

/-- Iterating `for s in steps` over the decoded `plan.get("plan", [])` value
(first forced by the `step_summary` generator): a JSON array yields its
elements; an empty string or empty object iterates zero times; any other
value raises on iteration or on the first element's `s["agent"]`. -/
def planStepsOf : Json → Except String (List Json)
  | .arr l => .ok l
  | .str s => if s = "" then .ok [] else .error "TypeError: string index"
  | .obj kvs => if kvs.isEmpty then .ok [] else .error "TypeError: string index"
  | _ => .error "TypeError: not iterable"

/-- Assignment `results[agent_name] = result` on a Python dict: an existing key keeps
its position and gets the new value, a new key is appended. -/
def upsert (rs : List (String × String)) (k v : String) : List (String × String) :=
  if rs.any (fun p => p.1 = k) then
    rs.map (fun p => if p.1 = k then (k, v) else p)
  else rs ++ [(k, v)]

/-- The `--- {name} 결과 ---` rendering of the results mapping, in its
iteration order (src/multi_agent.py lines 217-218 and 232-233). -/
def renderResults (rs : List (String × String)) : String :=
  String.join (rs.map fun p => "--- " ++ p.1 ++ " 결과 ---\n" ++ p.2 ++ "\n\n")

/-- The `full_task` string built for one step (src/multi_agent.py lines
213-218): context (original request), the current task, and — when the
results dict is non-empty — the rendering of all previously stored
results. -/
def buildFullTask (ctx task : String) (rs : List (String × String)) : String :=
  ctx ++ "현재 작업: " ++ task ++
    (if rs.isEmpty then "" else "\n\n이전 단계 결과:\n" ++ renderResults rs)

/-- The synthesis prompt (src/multi_agent.py lines 228-233). -/
def synthPrompt (user_input : String) (rs : List (String × String)) : String :=
  "원래 사용자 요청: " ++ user_input ++ "\n\n" ++
    "각 전문가의 결과를 통합하여 최종 응답을 만들어주세요:\n\n" ++ renderResults rs

/-- Step 5 of `Orchestrator.process` (src/multi_agent.py lines 223-252):
exactly one collected result is returned verbatim; otherwise one synthesis
LLM call (`synth`) is issued with the synthesis prompt and its text is
returned. -/
def synthesize (synth : String → Except String String) (user_input : String)
    (rs : List (String × String)) : Except String Json :=
  if rs.length = 1 then .ok (.str (rs.headD ("", "")).2)
  else
    match synth (synthPrompt user_input rs) with
    | .error e => .error e
    | .ok t => .ok (.str t)

/-- One executed plan step as recorded while `Orchestrator.process` runs:
the resolved agent name, the step's task (as rendered into the f-string),
the `full_task` passed to `specialist.run`, and the returned text. -/
structure Invocation where
  agent : String
  task : String
  fullTask : String
  output : String

/-- The external collaborators of `Orchestrator.process`: `planParse` is
`json.loads` applied to the planning call's response text (`_create_plan`,
src/multi_agent.py lines 163-180 — the LLM call and the JSON decoder are
both black-box collaborators; `Except.error` covers a raised LLM error or
`json.JSONDecodeError`); `registered` is membership in `self.specialists`;
`specRun n t` is the text returned by specialist `n` on task `t`
(`Except.error` a raised exception); `synth` is the synthesis
`generate_content` call. -/
structure OrchEnv where
  planParse : String → Except String Json
  registered : String → Bool
  specRun : String → String → Except String String
  synth : String → Except String String

/-- The `for step in steps` loop of src/multi_agent.py lines 204-221,
together with the trace of executed steps.  Per step: `step["agent"]` and
`step["task"]` are read, an unregistered agent is skipped, otherwise
`full_task` is built from the context and the current results dict and the
specialist is run; its result is stored under the agent name. -/
def stepsLoop (env : OrchEnv) (ctx : String) :
    List Json → List (String × String) → Except String (List (String × String)) × List Invocation
  | [], results => (.ok results, [])
  | step :: rest, results =>
    match stepAgent step with
    | .error e => (.error e, [])
    | .ok a =>
      match stepTask step with
      | .error e => (.error e, [])
      | .ok taskJ =>
        if env.registered a then
          let ft := buildFullTask ctx taskJ.pyStr results
          match env.specRun a ft with
          | .error e => (.error e, [])
          | .ok r =>
            let next := stepsLoop env ctx rest (upsert results a r)
            (next.1, ⟨a, taskJ.pyStr, ft, r⟩ :: next.2)
        else
          stepsLoop env ctx rest results

/-- The result of `Orchestrator.process`: the returned value (a Python
object — a string in every normal path, but `direct_response` is returned
untyped) or the raised exception, plus the trace of executed steps. -/
structure ProcOut where
  result : Except String Json
  trace : List Invocation

/-- Function `Orchestrator.process(user_input)` (src/multi_agent.py lines 182-252):
plan parse, the `needs_specialists` branch with defaulted lookups, the
`step_summary` forcing (line 197), the sequential step loop, and the final
synthesis. -/
def Orchestrator.process (env : OrchEnv) (user_input : String) : ProcOut :=
  match env.planParse user_input with
  | .error e => ⟨.error e, []⟩
  | .ok plan =>
    match plan.getD "needs_specialists" (Json.bool false) with
    | .error e => ⟨.error e, []⟩
    | .ok ns =>
      if ns.truthy = false then
        match plan.getD "direct_response" (Json.str emptyResponseText) with
        | .error e => ⟨.error e, []⟩
        | .ok d => ⟨.ok d, []⟩
      else
        match plan.getD "plan" (Json.arr []) with
        | .error e => ⟨.error e, []⟩
        | .ok stepsJ =>
          match planStepsOf stepsJ with
          | .error e => ⟨.error e, []⟩
          | .ok steps =>
            match stepSummary steps with
            | .error e => ⟨.error e, []⟩
            | .ok _ =>
              let ctx := "원래 사용자 요청: " ++ user_input ++ "\n\n"
              match stepsLoop env ctx steps [] with
              | (.error e, tr) => ⟨.error e, tr⟩
              | (.ok results, tr) => ⟨synthesize env.synth user_input results, tr⟩

/-- A part carrying only a tool-call request for tool `n` with no
arguments. -/
def fcPart (n : String) : GPart := { function_call := some ⟨n, []⟩ }

/-- The default `Invocation` used with `List.getD`. -/
def noInvocation : Invocation := ⟨"", "", "", ""⟩

/-- An empty routing table (an agent constructed without MCP tools). -/
def tmNone : String → Option String := fun _ => none

/-- A routing table registering only the tool `"t"` on server `"srv"`. -/
def tmT : String → Option String := fun n => if n = "t" then some "srv" else none

/-- A scripted LLM that always answers with the text parts
`["Hello", "", "World"]` and no tool call. -/
def envText : AgentEnv :=
  { resp := fun _ => ⟨"model", [mkTextPart "Hello", { text := some "" }, mkTextPart "World"]⟩,
    callTool := fun _ _ _ => .error "unused" }

/-- A scripted LLM that always answers with a single empty content. -/
def envBlank : AgentEnv :=
  { resp := fun _ => ⟨"model", []⟩,
    callTool := fun _ _ _ => .error "unused" }

/-- A scripted LLM that requests the unregistered tool `"ghost"` on every
turn. -/
def envGhost : AgentEnv :=
  { resp := fun _ => ⟨"model", [fcPart "ghost"]⟩,
    callTool := fun _ _ _ => .error "unused" }

/-- A scripted LLM that requests the registered tool `"t"` on every turn,
over an MCP session whose `call_tool` raises `"boom"`. -/
def envBoom : AgentEnv :=
  { resp := fun _ => ⟨"model", [fcPart "t"]⟩,
    callTool := fun _ _ _ => .error "boom" }

/-- A scripted LLM that requests the registered tool `"t"` on every turn,
over an MCP session whose `call_tool` raises `"MCP session closed"`. -/
def envClosed : AgentEnv :=
  { resp := fun _ => ⟨"model", [fcPart "t"]⟩,
    callTool := fun _ _ _ => .error "MCP session closed" }

/-- A plan step `{"agent": a, "task": t}`. -/
def stepJ (a t : String) : Json := .obj [("agent", .str a), ("task", .str t)]

/-- An orchestrator whose planning call returns the valid-JSON object
`{"foo": 1}`, which matches neither recognized plan shape. -/
def envFoo : OrchEnv :=
  { planParse := fun _ => .ok (.obj [("foo", .num 1)]),
    registered := fun _ => false,
    specRun := fun _ _ => .error "unused",
    synth := fun _ => .error "unused" }

/-- An orchestrator whose planning response text is not valid JSON, so
`json.loads` raises. -/
def envBadJson : OrchEnv :=
  { planParse := fun _ => .error "JSONDecodeError",
    registered := fun _ => false,
    specRun := fun _ _ => .error "unused",
    synth := fun _ => .error "unused" }

/-- A plan whose four steps repeat an agent name: a → b → a → c.  Each
specialist answers with its name followed by the length of the task it
received, so repeated runs of the same agent give distinct outputs. -/
def envDup : OrchEnv :=
  { planParse := fun _ => .ok (.obj [("needs_specialists", .bool true),
      ("plan", .arr [stepJ "a" "t1", stepJ "b" "t2", stepJ "a" "t3", stepJ "c" "t4"])]),
    registered := fun n => n = "a" || n = "b" || n = "c",
    specRun := fun n ft => .ok (n ++ toString ft.length),
    synth := fun p => .ok ("SYN:" ++ p) }

/-- The two-step analyst/writer plan of spec section 8, with stub
specialists returning `"DATA"` and `"DOC"` and an echoing synthesis call. -/
def envTwo : OrchEnv :=
  { planParse := fun _ => .ok (.obj [("needs_specialists", .bool true),
      ("plan", .arr [stepJ "analyst" "collect", stepJ "writer" "draft"])]),
    registered := fun n => n = "analyst" || n = "writer",
    specRun := fun n _ => .ok (if n = "analyst" then "DATA" else "DOC"),
    synth := fun p => .ok ("SYN:" ++ p) }

/-- A plan demanding specialists whose only step names the unregistered
agent `"ghost"`, with an echoing synthesis call. -/
def envOnlyGhost : OrchEnv :=
  { planParse := fun _ => .ok (.obj [("needs_specialists", .bool true),
      ("plan", .arr [stepJ "ghost" "x"])]),
    registered := fun _ => false,
    specRun := fun _ _ => .error "unused",
    synth := fun p => .ok ("SYN:" ++ p) }

/-- The specialist dispatch and the agent dispatch are the same function
(src/multi_agent.py lines 97-106 duplicate src/agent.py lines 117-126). -/
theorem dispatch_agree (tm : String → Option String) (env : AgentEnv) (fc : FunctionCall) :
    SpecialistAgent.dispatchCall tm env fc = GeminiMCPAgent.dispatchCall tm env fc := rfl

/-- The specialist tool-call traversal agrees with the agent one. -/
theorem runCalls_agree (tm : String → Option String) (env : AgentEnv) :
    ∀ fcs, SpecialistAgent.runCalls tm env fcs = GeminiMCPAgent.runCalls tm env fcs := by
  intro fcs
  induction fcs with
  | nil => rfl
  | cons fc rest ih =>
    simp only [SpecialistAgent.runCalls, GeminiMCPAgent.runCalls, dispatch_agree, ih]

/-- The specialist loop body agrees with the agent loop body at every fuel,
call index and message list. -/
theorem runAux_eq_loopAux (tm : String → Option String) (env : AgentEnv) :
    ∀ fuel idx msgs, SpecialistAgent.runAux tm env fuel idx msgs =
      GeminiMCPAgent.loopAux tm env fuel idx msgs := by
  intro fuel
  induction fuel with
  | zero => intro idx msgs; rfl
  | succ f ih =>
    intro idx msgs
    simp only [SpecialistAgent.runAux, GeminiMCPAgent.loopAux, runCalls_agree, ih]

/-- The loop makes at most `fuel` model calls. -/
theorem loopAux_calls_le (tm : String → Option String) (env : AgentEnv) :
    ∀ fuel idx msgs, (GeminiMCPAgent.loopAux tm env fuel idx msgs).calls ≤ fuel := by
  intro fuel
  induction fuel with
  | zero => intro idx msgs; exact Nat.le_refl 0
  | succ f ih =>
    intro idx msgs
    simp only [GeminiMCPAgent.loopAux]
    split
    · exact Nat.le_add_left 1 f
    · split
      · exact Nat.le_add_left 1 f
      · exact Nat.succ_le_succ (ih _ _)

/-- A batch of requests that all name unregistered tools produces the
substituted error-text parts and never raises. -/
theorem runCalls_unknown (tm : String → Option String) (env : AgentEnv) :
    ∀ fcs, (∀ fc ∈ fcs, tm fc.name = none) →
      GeminiMCPAgent.runCalls tm env fcs =
        .ok (fcs.map fun fc => mkFunctionResponsePart fc.name (unknownToolText fc.name)) := by
  intro fcs
  induction fcs with
  | nil => intro _; rfl
  | cons fc rest ih =>
    intro h
    have hfc : tm fc.name = none := h fc (List.mem_cons_self fc rest)
    have hrest := ih (fun g hg => h g (List.mem_cons_of_mem fc hg))
    simp only [GeminiMCPAgent.runCalls, GeminiMCPAgent.dispatchCall, hfc, hrest, List.map_cons]

/-- When every remaining response carries a tool call whose batch completes
without raising, the loop runs the fuel down to zero and returns the fixed
warning. -/
theorem loopAux_all_tool_calls (tm : String → Option String) (env : AgentEnv) :
    ∀ fuel idx msgs,
      (∀ k, k < fuel → functionCallsOf (env.resp (idx + k)).parts ≠ [] ∧
        ∃ ps, GeminiMCPAgent.runCalls tm env (functionCallsOf (env.resp (idx + k)).parts) = .ok ps) →
      (GeminiMCPAgent.loopAux tm env fuel idx msgs).outcome = .ok maxIterationsText ∧
        (GeminiMCPAgent.loopAux tm env fuel idx msgs).calls = fuel := by
  intro fuel
  induction fuel with
  | zero => intro idx msgs _; exact ⟨rfl, rfl⟩
  | succ f ih =>
    intro idx msgs h
    obtain ⟨hne, ps, hps⟩ := by simpa using h 0 (Nat.succ_pos f)
    have hshift : ∀ k, k < f → functionCallsOf (env.resp (idx + 1 + k)).parts ≠ [] ∧
        ∃ qs, GeminiMCPAgent.runCalls tm env (functionCallsOf (env.resp (idx + 1 + k)).parts) = .ok qs := by
      intro k hk
      have := h (k + 1) (Nat.succ_lt_succ hk)
      simpa [Nat.add_assoc, Nat.add_comm 1 k] using this
    have hempty : (functionCallsOf (env.resp idx).parts).isEmpty = false := by
      simpa [List.isEmpty_iff] using hne
    have := ih (idx + 1) (msgs ++ [env.resp idx, ⟨"user", ps⟩]) hshift
    simp only [GeminiMCPAgent.loopAux, hempty, hps]
    exact ⟨this.1, by simp [this.2]⟩

/-- C1 (amended): for every routing table, scripted environment and user
input, both tool-calling loops make at most 10 model calls; and when every
one of the 10 responses carries at least one tool-call request and each
iteration's batch of tool invocations completes without raising (requests
for unknown tools count as completed, with error text substituted), both
loops return the fixed warning string verbatim after exactly 10 model
calls. -/
theorem iteration_cap_terminates (tm : String → Option String) (env : AgentEnv)
    (user_input : String) :
    (GeminiMCPAgent.query tm env user_input).calls ≤ 10 ∧
    (SpecialistAgent.run tm env user_input).calls ≤ 10 ∧
    ((∀ k, k < 10 → functionCallsOf (env.resp k).parts ≠ [] ∧
        ∃ ps, GeminiMCPAgent.runCalls tm env (functionCallsOf (env.resp k).parts) = .ok ps) →
      (GeminiMCPAgent.query tm env user_input).outcome = .ok maxIterationsText ∧
      (GeminiMCPAgent.query tm env user_input).calls = 10 ∧
      (SpecialistAgent.run tm env user_input).outcome = .ok maxIterationsText ∧
      (SpecialistAgent.run tm env user_input).calls = 10) := by
  have hrun : SpecialistAgent.run tm env user_input = GeminiMCPAgent.query tm env user_input := by
    simp [SpecialistAgent.run, GeminiMCPAgent.query, runAux_eq_loopAux]
  refine ⟨loopAux_calls_le tm env 10 0 _, ?_, ?_⟩
  · rw [hrun]; exact loopAux_calls_le tm env 10 0 _
  · intro h
    have hall := loopAux_all_tool_calls tm env 10 0 [⟨"user", [mkTextPart user_input]⟩]
      (by intro k hk; simpa using h k hk)
    exact ⟨hall.1, hall.2, by rw [hrun]; exact hall.1, by rw [hrun]; exact hall.2⟩

/-- C1 witness: a model that requests the unregistered tool `"ghost"` on
every turn drives the loop through all 10 iterations and gets the fixed
warning back. -/
theorem iteration_cap_terminates_witness :
    (GeminiMCPAgent.query tmNone envGhost "hi").outcome = .ok maxIterationsText ∧
    (GeminiMCPAgent.query tmNone envGhost "hi").calls = 10 := by
  have h := (iteration_cap_terminates tmNone envGhost "hi").2.2 ?_
  · exact ⟨h.1, h.2.1⟩
  · intro k hk
    exact ⟨(by decide : [(⟨"ghost", []⟩ : FunctionCall)] ≠ ([] : List FunctionCall)),
      ⟨[mkFunctionResponsePart "ghost" (unknownToolText "ghost")], rfl⟩⟩

/-- C1 counterexample: with `tmT`/`envBoom` every scripted response carries
a tool-call request, yet the run raises `"boom"` out of the loop after a
single model call instead of returning the fixed warning string — C1's
"returns the fixed warning string verbatim rather than raising an error"
fails because `call_tool` exceptions are not caught. -/
theorem iteration_cap_counterexample :
    (GeminiMCPAgent.query tmT envBoom "hi").outcome = .error "boom" ∧
    (GeminiMCPAgent.query tmT envBoom "hi").calls = 1 := ⟨rfl, rfl⟩

/-- C2 (amended): a model-requested tool name absent from the routing table
never aborts the loop: both dispatchers substitute the fixed Korean error
text `오류: 알 수 없는 도구 '<name>'` (the source's rendering of "error:
unknown tool '<name>'") as that call's result, and when a response's
requests all name unknown tools the loop appends the substituted tool-result
turn and continues with the next iteration. -/
theorem unknown_tool_substituted (tm : String → Option String) (env : AgentEnv) :
    (∀ fc, tm fc.name = none →
      GeminiMCPAgent.dispatchCall tm env fc = .ok (unknownToolText fc.name) ∧
      SpecialistAgent.dispatchCall tm env fc = .ok (unknownToolText fc.name)) ∧
    (∀ f idx msgs, functionCallsOf (env.resp idx).parts ≠ [] →
      (∀ fc ∈ functionCallsOf (env.resp idx).parts, tm fc.name = none) →
      GeminiMCPAgent.loopAux tm env (f + 1) idx msgs =
        (let next := GeminiMCPAgent.loopAux tm env f (idx + 1)
            (msgs ++ [env.resp idx, ⟨"user", (functionCallsOf (env.resp idx).parts).map
              (fun fc => mkFunctionResponsePart fc.name (unknownToolText fc.name))⟩]);
         ⟨next.outcome, next.calls + 1, next.transcript⟩)) := by
  constructor
  · intro fc h
    constructor <;> simp [GeminiMCPAgent.dispatchCall, SpecialistAgent.dispatchCall, h]
  · intro f idx msgs hne hall
    have hempty : (functionCallsOf (env.resp idx).parts).isEmpty = false := by
      simpa [List.isEmpty_iff] using hne
    have hcalls := runCalls_unknown tm env _ hall
    simp only [GeminiMCPAgent.loopAux, hempty, hcalls]
    simp

/-- C2 witness: the unregistered tool `"ghost"` gets the substituted error
text, and a response consisting of that one request sends the loop on to
its next iteration with the substituted tool-result turn appended. -/
theorem unknown_tool_substituted_witness :
    GeminiMCPAgent.dispatchCall tmNone envGhost ⟨"ghost", []⟩ = .ok (unknownToolText "ghost") ∧
    GeminiMCPAgent.loopAux tmNone envGhost 1 0 [] =
      (let next := GeminiMCPAgent.loopAux tmNone envGhost 0 1
          ([] ++ [envGhost.resp 0, ⟨"user", (functionCallsOf (envGhost.resp 0).parts).map
            (fun fc => mkFunctionResponsePart fc.name (unknownToolText fc.name))⟩]);
       ⟨next.outcome, next.calls + 1, next.transcript⟩) := by
  refine ⟨((unknown_tool_substituted tmNone envGhost).1 ⟨"ghost", []⟩ rfl).1, ?_⟩
  exact (unknown_tool_substituted tmNone envGhost).2 0 0 [] (by decide) (by decide)

/-- C2 counterexample: the substituted tool-result text is the Korean
`오류: 알 수 없는 도구 'ghost'`, not the English template
`error: unknown tool 'ghost'` that the claim requires "exactly". -/
theorem unknown_tool_text_counterexample :
    GeminiMCPAgent.dispatchCall tmNone envGhost ⟨"ghost", []⟩ =
      .ok "오류: 알 수 없는 도구 'ghost'" ∧
    "오류: 알 수 없는 도구 'ghost'" ≠ "error: unknown tool 'ghost'" := ⟨rfl, by decide⟩

/-- C3 (amended): an exception raised by the provider's `call_tool` during
a tool invocation is not caught by either loop: when the first request of
the current response resolves to a provider whose call raises `e`, the
whole run aborts with `e`. -/
theorem tool_error_propagates (tm : String → Option String) (env : AgentEnv)
    (f idx : Nat) (msgs : List Content) (fc : FunctionCall) (rest : List FunctionCall)
    (server e : String)
    (hfc : functionCallsOf (env.resp idx).parts = fc :: rest)
    (hs : tm fc.name = some server) (hne : ¬ server = "")
    (herr : env.callTool server fc.name fc.args = .error e) :
    (GeminiMCPAgent.loopAux tm env (f + 1) idx msgs).outcome = .error e ∧
    (SpecialistAgent.runAux tm env (f + 1) idx msgs).outcome = .error e := by
  have hdisp : GeminiMCPAgent.dispatchCall tm env fc = .error e := by
    simp [GeminiMCPAgent.dispatchCall, hs, hne, herr]
  have hcalls : GeminiMCPAgent.runCalls tm env (fc :: rest) = .error e := by
    simp [GeminiMCPAgent.runCalls, hdisp]
  have hempty : (functionCallsOf (env.resp idx).parts).isEmpty = false := by
    simp [hfc]
  constructor
  · simp [GeminiMCPAgent.loopAux, hfc, hcalls]
  · rw [runAux_eq_loopAux]
    simp [GeminiMCPAgent.loopAux, hfc, hcalls]

/-- C3 witness: one iteration over a session whose `call_tool` raises
aborts both loops with that exception. -/
theorem tool_error_propagates_witness :
    (GeminiMCPAgent.loopAux tmT envClosed 1 0 []).outcome = .error "MCP session closed" ∧
    (SpecialistAgent.runAux tmT envClosed 1 0 []).outcome = .error "MCP session closed" :=
  tool_error_propagates tmT envClosed 0 0 [] ⟨"t", []⟩ [] "srv" "MCP session closed"
    rfl rfl (by decide) rfl

/-- C3 counterexample: a raised `call_tool` exception propagates out of
both `SpecialistAgent.run` and `GeminiMCPAgent.query` and aborts the run,
where the claim says it is caught and converted into an error-text tool
result. -/
theorem tool_error_counterexample :
    (SpecialistAgent.run tmT envClosed "hi").outcome = .error "MCP session closed" ∧
    (GeminiMCPAgent.query tmT envClosed "hi").outcome = .error "MCP session closed" := ⟨rfl, rfl⟩

/-- C7 (confirmed): when the current response carries zero tool-call parts,
both loops return the newline-joined concatenation of its (non-empty) text
parts, and the fixed empty-response placeholder when no such text part
exists. -/
theorem final_text_concat (tm : String → Option String) (env : AgentEnv)
    (f idx : Nat) (msgs : List Content)
    (h : functionCallsOf (env.resp idx).parts = []) :
    (GeminiMCPAgent.loopAux tm env (f + 1) idx msgs).outcome =
      .ok (if (textsOf (env.resp idx).parts).isEmpty then emptyResponseText
           else String.intercalate "\n" (textsOf (env.resp idx).parts)) ∧
    (SpecialistAgent.runAux tm env (f + 1) idx msgs).outcome =
      .ok (if (textsOf (env.resp idx).parts).isEmpty then emptyResponseText
           else String.intercalate "\n" (textsOf (env.resp idx).parts)) := by
  have hempty : (functionCallsOf (env.resp idx).parts).isEmpty = true := by simp [h]
  constructor
  · simp [GeminiMCPAgent.loopAux, hempty]
  · rw [runAux_eq_loopAux]
    simp [GeminiMCPAgent.loopAux, hempty]

/-- C7 witness: a text-only response `["Hello", "", "World"]` yields
`"Hello\nWorld"`, and a response without parts yields the placeholder. -/
theorem final_text_concat_witness :
    (GeminiMCPAgent.query tmNone envText "hi").outcome = .ok "Hello\nWorld" ∧
    (SpecialistAgent.run tmNone envBlank "hi").outcome = .ok emptyResponseText := by
  constructor
  · have h := (final_text_concat tmNone envText 9 0 [⟨"user", [mkTextPart "hi"]⟩] rfl).1
    exact h.trans (by rfl)
  · have h := (final_text_concat tmNone envBlank 9 0 [⟨"user", [mkTextPart "hi"]⟩] rfl).2
    exact h.trans (by rfl)

/-- C9 (confirmed): for every routing table, scripted response sequence,
tool behaviour and task, `SpecialistAgent.run` returns the same outcome
(final text or raised exception), makes the same number of model calls and
builds the same transcript as `GeminiMCPAgent.query` — the two are the same
tool-calling loop. -/
theorem specialist_run_eq_query (tm : String → Option String) (env : AgentEnv) (task : String) :
    SpecialistAgent.run tm env task = GeminiMCPAgent.query tm env task := by
  simp [SpecialistAgent.run, GeminiMCPAgent.query, runAux_eq_loopAux]

/-- Every trace entry's `full_task` is built from the context, that step's
task, and the results dict as accumulated (with in-place overwrites) over
exactly the earlier trace entries. -/
theorem stepsLoop_context (env : OrchEnv) (ctx : String) :
    ∀ steps results i,
      i < ((stepsLoop env ctx steps results).2).length →
      (((stepsLoop env ctx steps results).2).getD i noInvocation).fullTask =
        buildFullTask ctx (((stepsLoop env ctx steps results).2).getD i noInvocation).task
          (List.foldl (fun rs e => upsert rs e.agent e.output) results
            (((stepsLoop env ctx steps results).2).take i)) := by
  intro steps
  induction steps with
  | nil => intro results i h; simp [stepsLoop] at h
  | cons step rest ih =>
    intro results i h
    cases hA : stepAgent step with
    | error e => simp [stepsLoop, hA] at h
    | ok a =>
      cases hT : stepTask step with
      | error e => simp [stepsLoop, hA, hT] at h
      | ok tj =>
        cases hR : env.registered a with
        | false =>
          have hrw : stepsLoop env ctx (step :: rest) results = stepsLoop env ctx rest results := by
            simp [stepsLoop, hA, hT, hR]
          rw [hrw] at h ⊢
          exact ih results i h
        | true =>
          cases hS : env.specRun a (buildFullTask ctx tj.pyStr results) with
          | error e => simp [stepsLoop, hA, hT, hR, hS] at h
          | ok r =>
            have hrw : (stepsLoop env ctx (step :: rest) results).2 =
                ⟨a, tj.pyStr, buildFullTask ctx tj.pyStr results, r⟩ ::
                  (stepsLoop env ctx rest (upsert results a r)).2 := by
              simp [stepsLoop, hA, hT, hR, hS]
            rw [hrw] at h ⊢
            cases i with
            | zero => simp [buildFullTask]
            | succ j =>
              have hj : j < ((stepsLoop env ctx rest (upsert results a r)).2).length := by
                simpa using h
              have := ih (upsert results a r) j hj
              simpa using this

/-- C4 (amended): the task string passed to every executed plan step
consists of the original user request, that step's task description, and
the rendering of the results dict as accumulated over exactly the earlier
executed steps — keyed by agent name, a later step with a repeated agent
name overwriting the earlier entry in place — and hence never contains any
result produced at or after that step. -/
theorem step_context_prefix (env : OrchEnv) (user_input : String) (i : Nat)
    (h : i < ((Orchestrator.process env user_input).trace).length) :
    (((Orchestrator.process env user_input).trace).getD i noInvocation).fullTask =
      buildFullTask ("원래 사용자 요청: " ++ user_input ++ "\n\n")
        (((Orchestrator.process env user_input).trace).getD i noInvocation).task
        (List.foldl (fun rs e => upsert rs e.agent e.output) []
          (((Orchestrator.process env user_input).trace).take i)) := by
  cases hP : env.planParse user_input with
  | error e => simp [Orchestrator.process, hP] at h
  | ok plan =>
    cases hN : plan.getD "needs_specialists" (Json.bool false) with
    | error e => simp [Orchestrator.process, hP, hN] at h
    | ok ns =>
      cases hTr : ns.truthy with
      | false =>
        cases hD : plan.getD "direct_response" (Json.str emptyResponseText) with
        | error e => simp [Orchestrator.process, hP, hN, hTr, hD] at h
        | ok d => simp [Orchestrator.process, hP, hN, hTr, hD] at h
      | true =>
        cases hPl : plan.getD "plan" (Json.arr []) with
        | error e => simp [Orchestrator.process, hP, hN, hTr, hPl] at h
        | ok stepsJ =>
          cases hSt : planStepsOf stepsJ with
          | error e => simp [Orchestrator.process, hP, hN, hTr, hPl, hSt] at h
          | ok steps =>
            cases hM : stepSummary steps with
            | error e => simp [Orchestrator.process, hP, hN, hTr, hPl, hSt, hM] at h
            | ok agents =>
              have hTrace : (Orchestrator.process env user_input).trace =
                  (stepsLoop env ("원래 사용자 요청: " ++ user_input ++ "\n\n") steps []).2 := by
                cases hL : stepsLoop env ("원래 사용자 요청: " ++ user_input ++ "\n\n") steps [] with
                | mk out tr =>
                  cases out <;> simp [Orchestrator.process, hP, hN, hTr, hPl, hSt, hM, hL]
              rw [hTrace] at h ⊢
              exact stepsLoop_context env _ steps [] i h

set_option maxRecDepth 16384 in
/-- C4 witness: the fourth executed step of the duplicate-agent plan
a → b → a → c receives exactly the context predicted from the first three
trace entries. -/
theorem step_context_prefix_witness :
    3 < ((Orchestrator.process envDup "q").trace).length ∧
    (((Orchestrator.process envDup "q").trace).getD 3 noInvocation).fullTask =
      buildFullTask ("원래 사용자 요청: " ++ "q" ++ "\n\n")
        (((Orchestrator.process envDup "q").trace).getD 3 noInvocation).task
        (List.foldl (fun rs e => upsert rs e.agent e.output) []
          (((Orchestrator.process envDup "q").trace).take 3)) :=
  ⟨by decide, step_context_prefix envDup "q" 3 (by decide)⟩

set_option maxRecDepth 16384 in
/-- C4 counterexample: under the plan a → b → a → c, the context passed to
step 4 renders agent a's entry first although it holds the step-3 result
(produced after step-2's b result), and step 1's result has been
overwritten away — so the context is not "the stored results of exactly
the previously executed steps 1..k-1 in the order they were produced". -/
theorem step_context_counterexample :
    (((Orchestrator.process envDup "q").trace).getD 3 noInvocation).fullTask =
      buildFullTask "원래 사용자 요청: q\n\n" "t4"
        [("a", (((Orchestrator.process envDup "q").trace).getD 2 noInvocation).output),
         ("b", (((Orchestrator.process envDup "q").trace).getD 1 noInvocation).output)] ∧
    (((Orchestrator.process envDup "q").trace).getD 3 noInvocation).fullTask ≠
      buildFullTask "원래 사용자 요청: q\n\n" "t4"
        [("b", (((Orchestrator.process envDup "q").trace).getD 1 noInvocation).output),
         ("a", (((Orchestrator.process envDup "q").trace).getD 2 noInvocation).output)] ∧
    (((Orchestrator.process envDup "q").trace).getD 2 noInvocation).output ≠
      (((Orchestrator.process envDup "q").trace).getD 0 noInvocation).output := by
  refine ⟨?_, ?_, ?_⟩ <;> decide

/-- When the plan path succeeds and the step loop completes with results
`rs`, `Orchestrator.process` returns the synthesis of `rs`. -/
theorem process_synthesize (env : OrchEnv) (user_input : String)
    (plan ns stepsJ : Json) (steps : List Json) (agents : List String)
    (rs : List (String × String))
    (hP : env.planParse user_input = .ok plan)
    (hN : plan.getD "needs_specialists" (Json.bool false) = .ok ns)
    (hTr : ns.truthy = true)
    (hPl : plan.getD "plan" (Json.arr []) = .ok stepsJ)
    (hSt : planStepsOf stepsJ = .ok steps)
    (hM : stepSummary steps = .ok agents)
    (hL : (stepsLoop env ("원래 사용자 요청: " ++ user_input ++ "\n\n") steps []).1 = .ok rs) :
    Orchestrator.process env user_input =
      ⟨synthesize env.synth user_input rs,
       (stepsLoop env ("원래 사용자 요청: " ++ user_input ++ "\n\n") steps []).2⟩ := by
  cases hE : stepsLoop env ("원래 사용자 요청: " ++ user_input ++ "\n\n") steps [] with
  | mk out tr =>
    rw [hE] at hL
    simp only at hL
    subst hL
    simp [Orchestrator.process, hP, hN, hTr, hPl, hSt, hM, hE]

/-- C5 (confirmed): when the plan path succeeds and the step loop collects
results `rs`, `Orchestrator.process` returns `synthesize env.synth user rs`;
a single collected result is returned verbatim wrapped as a string —
independently of the synthesis collaborator, i.e. with no synthesis LLM
call — and more than one collected result produces exactly one synthesis
call whose prompt is `synthPrompt` (the original request followed by every
result in step order, each labeled by agent name), whose text output is
returned. -/
theorem synthesis_behavior (env : OrchEnv) (user_input : String)
    (plan ns stepsJ : Json) (steps : List Json) (agents : List String)
    (rs : List (String × String))
    (hP : env.planParse user_input = .ok plan)
    (hN : plan.getD "needs_specialists" (Json.bool false) = .ok ns)
    (hTr : ns.truthy = true)
    (hPl : plan.getD "plan" (Json.arr []) = .ok stepsJ)
    (hSt : planStepsOf stepsJ = .ok steps)
    (hM : stepSummary steps = .ok agents)
    (hL : (stepsLoop env ("원래 사용자 요청: " ++ user_input ++ "\n\n") steps []).1 = .ok rs) :
    Orchestrator.process env user_input =
      ⟨synthesize env.synth user_input rs,
       (stepsLoop env ("원래 사용자 요청: " ++ user_input ++ "\n\n") steps []).2⟩ ∧
    (∀ a r, synthesize env.synth user_input [(a, r)] = .ok (.str r)) ∧
    (1 < rs.length →
      synthesize env.synth user_input rs =
        Except.map Json.str (env.synth (synthPrompt user_input rs))) := by
  refine ⟨process_synthesize env user_input plan ns stepsJ steps agents rs
    hP hN hTr hPl hSt hM hL, ?_, ?_⟩
  · intro a r; simp [synthesize]
  · intro hlen
    have hne : rs.length ≠ 1 := by omega
    simp only [synthesize, hne, if_false]
    cases env.synth (synthPrompt user_input rs) <;> rfl

/-- C5 witness: the two-step analyst/writer plan collects `DATA` and `DOC`,
and the final answer is the synthesis call's output on the prompt carrying
both labeled results. -/
theorem synthesis_behavior_witness :
    Orchestrator.process envTwo "u" =
      ⟨synthesize envTwo.synth "u" [("analyst", "DATA"), ("writer", "DOC")],
       (stepsLoop envTwo ("원래 사용자 요청: " ++ "u" ++ "\n\n")
         [stepJ "analyst" "collect", stepJ "writer" "draft"] []).2⟩ ∧
    synthesize envTwo.synth "u" [("analyst", "DATA"), ("writer", "DOC")] =
      Except.map Json.str
        (envTwo.synth (synthPrompt "u" [("analyst", "DATA"), ("writer", "DOC")])) := by
  have h := synthesis_behavior envTwo "u"
    (.obj [("needs_specialists", .bool true),
      ("plan", .arr [stepJ "analyst" "collect", stepJ "writer" "draft"])])
    (.bool true)
    (.arr [stepJ "analyst" "collect", stepJ "writer" "draft"])
    [stepJ "analyst" "collect", stepJ "writer" "draft"]
    ["analyst", "writer"]
    [("analyst", "DATA"), ("writer", "DOC")]
    rfl rfl rfl rfl rfl rfl rfl
  exact ⟨h.1, h.2.2 (by decide)⟩

/-- C6 (amended): a planning response that is not valid JSON (the decoder
raises), or whose decoded value is not a JSON object (the shape access
raises), makes `Orchestrator.process` fail with the propagated error; but
a decoded JSON object matching neither recognized shape is not an error —
a missing `needs_specialists` key defaults to false and the (possibly
defaulted) `direct_response` value is returned. -/
theorem plan_parse_failure :
    (∀ (env : OrchEnv) (user_input e : String),
      env.planParse user_input = .error e →
      Orchestrator.process env user_input = ⟨.error e, []⟩) ∧
    (∀ (env : OrchEnv) (user_input : String) (l : List Json),
      env.planParse user_input = .ok (.arr l) →
      Orchestrator.process env user_input = ⟨.error "AttributeError: get", []⟩) ∧
    (∀ (env : OrchEnv) (user_input : String) (kvs : List (String × Json)),
      env.planParse user_input = .ok (.obj kvs) →
      kvs.lookup "needs_specialists" = none →
      Orchestrator.process env user_input =
        ⟨.ok ((kvs.lookup "direct_response").getD (.str emptyResponseText)), []⟩) := by
  refine ⟨?_, ?_, ?_⟩
  · intro env u e h; simp [Orchestrator.process, h]
  · intro env u l h; simp [Orchestrator.process, h, Json.getD]
  · intro env u kvs h hk
    simp [Orchestrator.process, h, Json.getD, hk, Json.truthy]

/-- C6 witness: an invalid planning response body makes the request fail
with the decoder's error. -/
theorem plan_parse_failure_witness :
    Orchestrator.process envBadJson "u" = ⟨.error "JSONDecodeError", []⟩ :=
  plan_parse_failure.1 envBadJson "u" "JSONDecodeError" rfl

/-- C6 counterexample: the planning response `{"foo": 1}` is valid JSON and
matches neither recognized plan shape, yet `Orchestrator.process` does not
fail — it returns the defaulted placeholder response, contradicting the
claim that a shape mismatch is fatal and never defaulted. -/
theorem plan_shape_counterexample :
    (Orchestrator.process envFoo "hi").result = .ok (.str "(빈 응답)") := rfl

/-- C8 (confirmed): a plan step whose (well-formed) agent name is not a
registered specialist is skipped without raising: the step loop on that
step equals the step loop on the remaining steps, with the same results and
the same trace — the step contributes nothing to the results used for
synthesis. -/
theorem unknown_specialist_skipped (env : OrchEnv) (ctx : String)
    (step : Json) (rest : List Json) (results : List (String × String))
    (a : String) (tj : Json)
    (hA : stepAgent step = .ok a) (hT : stepTask step = .ok tj)
    (hR : env.registered a = false) :
    stepsLoop env ctx (step :: rest) results = stepsLoop env ctx rest results := by
  simp [stepsLoop, hA, hT, hR]

/-- C8 witness: the step naming the unregistered agent `"ghost"` is skipped
and the loop continues with the remaining (here: no) steps. -/
theorem unknown_specialist_skipped_witness :
    stepsLoop envOnlyGhost "c" [stepJ "ghost" "x"] [] = stepsLoop envOnlyGhost "c" [] [] :=
  unknown_specialist_skipped envOnlyGhost "c" (stepJ "ghost" "x") [] [] "ghost" (.str "x")
    rfl rfl rfl

/-- C10 (confirmed): a plan demanding specialists that collects zero step
results does not fail and returns no placeholder: `Orchestrator.process`
still issues the synthesis call, on the prompt carrying the original
request and an empty rendering (no labeled results), and returns its text
output. -/
theorem empty_results_synthesis (env : OrchEnv) (user_input : String)
    (plan ns stepsJ : Json) (steps : List Json) (agents : List String)
    (hP : env.planParse user_input = .ok plan)
    (hN : plan.getD "needs_specialists" (Json.bool false) = .ok ns)
    (hTr : ns.truthy = true)
    (hPl : plan.getD "plan" (Json.arr []) = .ok stepsJ)
    (hSt : planStepsOf stepsJ = .ok steps)
    (hM : stepSummary steps = .ok agents)
    (hL : (stepsLoop env ("원래 사용자 요청: " ++ user_input ++ "\n\n") steps []).1 = .ok []) :
    Orchestrator.process env user_input =
      ⟨Except.map Json.str (env.synth (synthPrompt user_input [])),
       (stepsLoop env ("원래 사용자 요청: " ++ user_input ++ "\n\n") steps []).2⟩ ∧
    renderResults [] = "" := by
  have h := process_synthesize env user_input plan ns stepsJ steps agents []
    hP hN hTr hPl hSt hM hL
  refine ⟨?_, rfl⟩
  rw [h]
  have hsyn : synthesize env.synth user_input [] =
      Except.map Json.str (env.synth (synthPrompt user_input [])) := by
    simp only [synthesize]
    cases env.synth (synthPrompt user_input []) <;> rfl
  rw [hsyn]

/-- C10 witness: a plan whose only step names an unknown specialist
collects nothing, and the request still returns the synthesis call's
output on the no-results prompt. -/
theorem empty_results_synthesis_witness :
    Orchestrator.process envOnlyGhost "u" =
      ⟨.ok (.str ("SYN:" ++ synthPrompt "u" [])), []⟩ := by
  have h := (empty_results_synthesis envOnlyGhost "u"
    (.obj [("needs_specialists", .bool true), ("plan", .arr [stepJ "ghost" "x"])])
    (.bool true) (.arr [stepJ "ghost" "x"]) [stepJ "ghost" "x"] ["ghost"]
    rfl rfl rfl rfl rfl rfl rfl).1
  exact h.trans (by rfl)
